import Mathlib

/-!
Shallow embedding of `src/routes/chat.js` (the conversational intent router).

Numbers are modelled as rationals; JS string operations (`toLowerCase`,
`trim`, `includes`, the first-number regex, `toFixed`) are modelled by
executable Lean functions.  External collaborators (the SQLite market-data
store, the Spring Boot account backend, the generative model) are modelled
as oracles in an `Env` record: each field holds the outcome the collaborator
would produce for the single call the handler makes to it.  The route
handler `chatHandler` is a pure function of the request, the stored session
and the `Env`, returning the HTTP response, the session after the request,
and the ordered trace of outbound side-effecting calls.
-/

set_option maxHeartbeats 1000000
set_option maxRecDepth 8192

/-- One cached market-data row (table `crypto_prices`, selected by
`getCryptoData`). -/
structure CoinFact where
  name : String
  symbol : String
  price : ℚ
  market_cap : ℚ
  volume_24h : ℚ
  change_24h : ℚ
  last_updated : String
deriving Repr, DecidableEq

/-- One news row (table `crypto_news`, selected by `getLatestNews`). -/
structure NewsItem where
  title : String
  url : String
  source : String
  published_at : String
deriving Repr, DecidableEq

/-- Wallet payload of `GET /api/wallet`. -/
structure Wallet where
  id : ℕ
  balance : ℚ
deriving Repr, DecidableEq

/-- The `coin` sub-object of a portfolio asset. -/
structure CoinRef where
  id : String
  name : String
  symbol : String
deriving Repr, DecidableEq

/-- One portfolio asset from `GET /api/assets`. -/
structure Asset where
  coin : CoinRef
  quantity : ℚ
deriving Repr, DecidableEq

/-- Profile payload of `GET /api/users/profile`. -/
structure Profile where
  fullName : String
  email : String
  mobile : String
deriving Repr, DecidableEq

/-- The closed intent enumeration `detectIntent` coerces into. -/
inductive Intent where
  | price
  | market_cap
  | volume
  | change
  | general
deriving Repr, DecidableEq

/-- The two order types of the trade branch. -/
inductive OrderType where
  | BUY
  | SELL
deriving Repr, DecidableEq

/-- `orderType.toLowerCase()` as used in the replies. -/
def OrderType.lowerName : OrderType → String
  | .BUY => "buy"
  | .SELL => "sell"

/-- The `orderData` object posted to `/api/orders/pay`. -/
structure OrderData where
  coinId : String
  quantity : ℚ
  orderType : OrderType
deriving Repr, DecidableEq

/-- One user's entry of `conversationMemory`: raw history lines plus the
optional `lastCoin` pointer. -/
structure Session where
  history : List String
  lastCoin : Option String
deriving Repr, DecidableEq

/-- JS `s.toLowerCase()` (ASCII), kernel-computable. -/
def lowerStr (s : String) : String :=
  String.mk (s.data.map Char.toLower)

/-- JS `s.toUpperCase()` (ASCII), kernel-computable. -/
def upperStr (s : String) : String :=
  String.mk (s.data.map Char.toUpper)

/-- JS `s.trim()`, kernel-computable. -/
def trimStr (s : String) : String :=
  String.mk (((s.data.dropWhile Char.isWhitespace).reverse.dropWhile Char.isWhitespace).reverse)

/-- JS `array.join(sep)`, kernel-computable. -/
def joinSep (sep : String) : List String → String
  | [] => ""
  | [x] => x
  | x :: y :: rest => x ++ sep ++ joinSep sep (y :: rest)

/-- Does `pat` occur as a contiguous run inside the character list?
Models JS `String.prototype.includes`. -/
def hasSubList : List Char → List Char → Bool
  | _, [] => true
  | [], _ :: _ => false
  | c :: rest, p :: ps => List.isPrefixOf (p :: ps) (c :: rest) || hasSubList rest (p :: ps)

/-- JS `s.includes(pat)`. -/
def strIncludes (s pat : String) : Bool :=
  hasSubList s.toList pat.toList

/-- Value of a digit run, most significant first. -/
def digitsToNat (ds : List Char) : ℕ :=
  ds.foldl (fun a c => 10 * a + (c.toNat - 48)) 0

/-- First numeric literal in the text: models
`cleanMessage.match(/(\d+(\.\d+)?)/)` followed by `parseFloat`. -/
def firstNumber : List Char → Option ℚ
  | [] => none
  | c :: rest =>
    if c.isDigit then
      let intDs := (c :: rest).takeWhile Char.isDigit
      let rest' := (c :: rest).dropWhile Char.isDigit
      match rest' with
      | '.' :: r2 =>
        let fracDs := r2.takeWhile Char.isDigit
        if fracDs.isEmpty then some (digitsToNat intDs : ℚ)
        else some ((digitsToNat intDs : ℚ) + (digitsToNat fracDs : ℚ) / (10 : ℚ) ^ fracDs.length)
      | _ => some (digitsToNat intDs : ℚ)
    else firstNumber rest

/-- `parseFloat(q.toFixed(8))`: round to 8 fractional digits (ties up). -/
def round8 (q : ℚ) : ℚ :=
  (round (q * 100000000) : ℤ) / 100000000

/-- JS `array.slice(-n)`: the last `n` elements. -/
def takeLast {α : Type} (n : ℕ) (l : List α) : List α :=
  l.drop (l.length - n)

/-- `updateConversationMemory`, acting on the stored history list: append
the user line and the bot line, then keep only the most recent 20 entries. -/
def updateConversationMemory (history : List String) (userMessage botReply : String) : List String :=
  let h := history ++ ["User: " ++ userMessage, "Bot: " ++ botReply]
  if h.length > 20 then takeLast 20 h else h

/-- Collapse whitespace runs to a single space (the `\s+` replacement of
`cleanResponse`). -/
def collapseWs : List Char → List Char
  | [] => []
  | [c] => [if c.isWhitespace then ' ' else c]
  | c :: d :: rest =>
    if c.isWhitespace && d.isWhitespace then collapseWs (d :: rest)
    else (if c.isWhitespace then ' ' else c) :: collapseWs (d :: rest)

/-- `cleanResponse`: drop line breaks and `*` emphasis markers, collapse
whitespace, trim. -/
def cleanResponse (t : String) : String :=
  trimStr (String.mk (collapseWs (((t.data.map fun c => if c = '\n' then ' ' else c).filter (fun c => c ≠ '*')))))

/-- Left-pad with zeros to width `w`. -/
def zeroPad (w : ℕ) (s : String) : String :=
  String.mk (List.replicate (w - s.length) '0') ++ s

/-- `q.toFixed(prec)`: fixed-point rendering with `prec` fractional digits. -/
def ratToFixed (prec : ℕ) (q : ℚ) : String :=
  let scaled : ℤ := round (q * (10 : ℚ) ^ prec)
  let sign := if scaled < 0 then "-" else ""
  let a := scaled.natAbs
  let ip := a / 10 ^ prec
  let fp := a % 10 ^ prec
  sign ++ toString ip ++ (if prec = 0 then "" else "." ++ zeroPad prec (toString fp))

/-- Insert thousands separators into a reversed digit list. -/
def groupCommasAux : List Char → List Char
  | a :: b :: c :: d :: rest => a :: b :: c :: ',' :: groupCommasAux (d :: rest)
  | l => l

/-- Comma-grouped rendering of a natural number. -/
def groupCommas (n : ℕ) : String :=
  String.mk ((groupCommasAux (toString n).toList.reverse).reverse)

/-- Drop trailing `'0'` characters. -/
def stripZeros (s : String) : String :=
  String.mk (s.toList.reverse.dropWhile (fun c => c = '0')).reverse

/-- `q.toLocaleString()`: grouped integer part, up to 3 fractional digits. -/
def fmtLocale (q : ℚ) : String :=
  let n3 : ℤ := round (q * 1000)
  let sign := if n3 < 0 then "-" else ""
  let a := n3.natAbs
  let ip := a / 1000
  let fp := a % 1000
  let frac := stripZeros (zeroPad 3 (toString fp))
  sign ++ groupCommas ip ++ (if frac = "" then "" else "." ++ frac)

/-- Default JS number-to-string rendering for a rational, used where the
code interpolates a number directly into a template string. -/
def ratToString (q : ℚ) : String :=
  if q.den = 1 then toString q.num
  else
    match (List.range 11).find? (fun k => (10 : ℕ) ^ k % q.den = 0) with
    | some k => ratToFixed k q
    | none => toString q.num ++ "/" ++ toString q.den

/-- `getCryptoData`: queries `crypto_prices` with the lower-cased name; the
callback rejects with `"Database error."` when the db reports an error,
otherwise resolves the (possibly absent) row.  The rejection propagates to
the caller as an exception. -/
def getCryptoData (dbq : String → Except String (Option CoinFact)) (coinName : String) :
    Except String (Option CoinFact) :=
  match dbq (lowerStr coinName) with
  | .error _ => .error "Database error."
  | .ok row => .ok row

/-- `getLatestNews`: queries `crypto_news`; rejects with
`"Database error fetching news."` on a db error, otherwise resolves the
row list. -/
def getLatestNews (dbq : Except String (List NewsItem)) : Except String (List NewsItem) :=
  match dbq with
  | .error _ => .error "Database error fetching news."
  | .ok rows => .ok rows

/-- `fetchUserProfile`: any axios failure is caught and becomes `null`. -/
def fetchUserProfile (api : Except String Profile) : Option Profile :=
  match api with
  | .ok v => some v
  | .error _ => none

/-- `fetchUserPortfolio`: any axios failure is caught and becomes `null`. -/
def fetchUserPortfolio (api : Except String (List Asset)) : Option (List Asset) :=
  match api with
  | .ok v => some v
  | .error _ => none

/-- `fetchOrderHistory`: any axios failure is caught and becomes `null`
(the payload is opaque to the handler, modelled as strings). -/
def fetchOrderHistory (api : Except String (List String)) : Option (List String) :=
  match api with
  | .ok v => some v
  | .error _ => none

/-- `fetchUserWallet`: any axios failure is caught and becomes `null`. -/
def fetchUserWallet (api : Except String Wallet) : Option Wallet :=
  match api with
  | .ok v => some v
  | .error _ => none

/-- `fetchWalletTransactions`: any axios failure is caught and becomes
`null` (opaque payload, modelled as strings). -/
def fetchWalletTransactions (api : Except String (List String)) : Option (List String) :=
  match api with
  | .ok v => some v
  | .error _ => none

/-- Collaborator oracle for one request: the outcome each external call
would produce.  `extractCoin` is the folded result of `extractCoinName`
(Gemini failures and the literal answer `"unknown"` already collapsed to
`none`, success already lower-cased); `intentOf` likewise is the folded
result of `detectIntent`. -/
structure Env where
  extractCoin : Option String
  intentOf : Intent
  newsDb : Except String (List NewsItem)
  coinDb : String → Except String (Option CoinFact)
  profileApi : Except String Profile
  portfolioApi : Except String (List Asset)
  walletApi : Except String Wallet
  orderApi : Except String Unit
  genAi : Except String String

/-- One outbound side-effecting call made while handling a request. -/
inductive Event where
  | newsQuery
  | coinQuery (nameArg : String)
  | profileFetch
  | portfolioFetch
  | walletFetch
  | orderSubmit (o : OrderData)
  | genQuery (prompt : String)
deriving Repr, DecidableEq

/-- The HTTP response of the route. -/
inductive Response where
  | ok (reply : String)
  | badRequest (error : String)
  | serverError (error : String)
deriving Repr, DecidableEq

/-- Result of handling one request: response, the stored session after the
request (as the store would hold it), and the trace of outbound calls. -/
structure RunResult where
  response : Response
  sessionAfter : Option Session
  events : List Event
deriving Repr, DecidableEq

/-- A `return res.json({reply})` path: record the turn in the history and
answer 200. -/
def finish (s : Session) (clean reply : String) (evs : List Event) : RunResult :=
  ⟨.ok reply, some { s with history := updateConversationMemory s.history clean reply }, evs⟩

/-- An uncaught exception reaching the route's top-level catch:
`res.status(500).json({error: "Internal server error"})`.  Session
mutations already performed (the `lastCoin` write) persist. -/
def crashed (s : Session) (evs : List Event) : RunResult :=
  ⟨.serverError "Internal server error", some s, evs⟩

/-- Lines 174-179: the extracted coin overwrites `lastCoin` when present,
otherwise the remembered `lastCoin` is used.  The value returned is both
the request's resolved `coinName` and the session's new `lastCoin`. -/
def resolveCoin (extracted lastC : Option String) : Option String :=
  match extracted with
  | some c => some c
  | none => lastC

/-- The `portfolio.find(...)` predicate of the SELL and holdings checks. -/
def assetMatches (c : String) (a : Asset) : Bool :=
  lowerStr a.coin.name == c || lowerStr a.coin.symbol == c

/-- Lines 283-305: build `orderData` and post it once; success and failure
both produce a 200 reply, with no retry. -/
def placeOrder (env : Env) (clean : String) (s1 : Session) (orderType : OrderType)
    (quantity : ℚ) (cryptoData : CoinFact) (evs : List Event) : RunResult :=
  let orderData : OrderData := ⟨lowerStr cryptoData.name, round8 quantity, orderType⟩
  match env.orderApi with
  | .ok _ =>
    finish s1 clean ("Order placed successfully for " ++ orderType.lowerName ++ "ing " ++ cryptoData.name ++ ".")
      (evs ++ [.orderSubmit orderData])
  | .error msg =>
    finish s1 clean ("❌ Failed to place the order. " ++ msg) (evs ++ [.orderSubmit orderData])

/-- Trade branch from the `!coinName` guard (line 232) onwards: coin guard,
second `getCryptoData`, balance / holdings validation, then `placeOrder`. -/
def tradeCont (env : Env) (clean : String) (coinR : Option String) (s1 : Session)
    (orderType : OrderType) (parsedNumber : ℚ) (isDollar : Bool) (quantity : ℚ)
    (evs : List Event) : RunResult :=
  match coinR with
  | none => finish s1 clean "Please specify which coin you want to trade." evs
  | some c =>
    match getCryptoData env.coinDb c with
    | .error _ => crashed s1 (evs ++ [Event.coinQuery c])
    | .ok none => finish s1 clean ("⚠️ Couldn't find data for " ++ c) (evs ++ [Event.coinQuery c])
    | .ok (some cryptoData) =>
      match orderType with
      | .BUY =>
        match fetchUserWallet env.walletApi with
        | none => finish s1 clean "❌ Couldn't fetch wallet balance." (evs ++ [Event.coinQuery c, Event.walletFetch])
        | some wallet =>
          let cost := if isDollar then parsedNumber else quantity * cryptoData.price
          if wallet.balance < cost then
            finish s1 clean "Insufficient wallet balance to buy." (evs ++ [Event.coinQuery c, Event.walletFetch])
          else
            placeOrder env clean s1 .BUY quantity cryptoData (evs ++ [Event.coinQuery c, Event.walletFetch])
      | .SELL =>
        match fetchUserPortfolio env.portfolioApi with
        | none => finish s1 clean "❌ Couldn't fetch your portfolio." (evs ++ [Event.coinQuery c, Event.portfolioFetch])
        | some portfolio =>
          match portfolio.find? (fun a => assetMatches c a) with
          | none => finish s1 clean ("You are not holding " ++ c ++ ".") (evs ++ [Event.coinQuery c, Event.portfolioFetch])
          | some assetFound =>
            if assetFound.quantity < quantity then
              finish s1 clean "Insufficient quantity to sell." (evs ++ [Event.coinQuery c, Event.portfolioFetch])
            else
              placeOrder env clean s1 .SELL quantity cryptoData (evs ++ [Event.coinQuery c, Event.portfolioFetch])

/-- Lines 200-306, the buy/sell branch: order-type selection, amount
extraction, dollar detection, quantity computation (which, for a
dollar-denominated BUY, calls `getCryptoData(coinName)` before the
`!coinName` guard — `coinName` still unresolved throws a `TypeError` that
the top-level catch turns into a 500), then `tradeCont`. -/
def tradeBranch (env : Env) (clean : String) (coinR : Option String) (s1 : Session) : RunResult :=
  let orderType : OrderType := if strIncludes clean "buy" then .BUY else .SELL
  match firstNumber clean.toList with
  | none => finish s1 clean ("Please specify the amount to " ++ orderType.lowerName ++ ".") []
  | some parsedNumber =>
    let isDollar := strIncludes clean "dollar" || strIncludes clean "usd" || strIncludes clean "worth"
    match orderType, isDollar with
    | .BUY, true =>
      match coinR with
      | none => crashed s1 []
      | some c =>
        match getCryptoData env.coinDb c with
        | .error _ => crashed s1 [Event.coinQuery c]
        | .ok none => finish s1 clean ("⚠️ Couldn't find data for " ++ c) [Event.coinQuery c]
        | .ok (some cd) =>
          tradeCont env clean (some c) s1 .BUY parsedNumber true (parsedNumber / cd.price) [Event.coinQuery c]
    | .BUY, false => tradeCont env clean coinR s1 .BUY parsedNumber false parsedNumber []
    | .SELL, d => tradeCont env clean coinR s1 .SELL parsedNumber d parsedNumber []

/-- Lines 310-332, the holdings-query branch. -/
def holdingsBranch (env : Env) (clean : String) (c : String) (s1 : Session) : RunResult :=
  match fetchUserPortfolio env.portfolioApi with
  | none => finish s1 clean "❌ Couldn't fetch your portfolio." [Event.portfolioFetch]
  | some portfolio =>
    match portfolio.find? (fun a => assetMatches c a) with
    | none => finish s1 clean ("You are not holding " ++ c ++ ".") [Event.portfolioFetch]
    | some assetFound =>
      match getCryptoData env.coinDb assetFound.coin.id with
      | .error _ => crashed s1 [Event.portfolioFetch, Event.coinQuery assetFound.coin.id]
      | .ok cd =>
        let value := match cd with
          | some f => if f.price ≠ 0 then ratToFixed 2 (assetFound.quantity * f.price) else "N/A"
          | none => "N/A"
        let reply := "Yes, you are holding " ++ ratToString assetFound.quantity ++ " " ++
          assetFound.coin.name ++ " (" ++ assetFound.coin.symbol ++ ")." ++
          (if value ≠ "N/A" then " Its current value is $" ++ value ++ "." else "")
        finish s1 clean reply [Event.portfolioFetch, Event.coinQuery assetFound.coin.id]

/-- The sensitive-keyword list of the default branch. -/
def sensitiveKeywords : List String :=
  ["profile", "portfolio", "orders", "wallet", "transaction"]

/-- One line of the portfolio context block (lines 384-388), including the
per-asset `getCryptoData` call whose db error would reject the whole
`Promise.all`. -/
def portfolioLine (coinDbq : String → Except String (Option CoinFact)) (a : Asset) :
    Except String String :=
  match getCryptoData coinDbq a.coin.id with
  | .error e => .error e
  | .ok cd =>
    let currentValue := match cd with
      | some f => if f.price ≠ 0 then ratToFixed 2 (a.quantity * f.price) else "N/A"
      | none => "N/A"
    let atPrice := match cd with
      | some f => ratToFixed 2 f.price
      | none => "N/A"
    .ok ("- " ++ ratToString a.quantity ++ " " ++ a.coin.symbol ++ " ($" ++ currentValue ++ ") @ $" ++ atPrice)

/-- All portfolio context lines; the first db error rejects. -/
def portfolioLines (coinDbq : String → Except String (Option CoinFact)) :
    List Asset → Except String (List String)
  | [] => .ok []
  | a :: rest =>
    match portfolioLine coinDbq a, portfolioLines coinDbq rest with
    | .error e, _ => .error e
    | .ok _, .error e => .error e
    | .ok l, .ok ls => .ok (l :: ls)

/-- Lines 358-409, the default/generative fallback branch: keyword-gated
account context, last 10 raw history entries, prompt assembly, one
generative call (whose failure is the only unrecovered path). -/
def fallbackBranch (env : Env) (clean : String) (authHeader : Option String)
    (s1 : Session) (evs : List Event) : RunResult :=
  let includeUserData := sensitiveKeywords.any (fun k => strIncludes clean k)
  let fetchCtx := authHeader.isSome && includeUserData
  let profile := if fetchCtx then fetchUserProfile env.profileApi else none
  let portfolio := if fetchCtx then fetchUserPortfolio env.portfolioApi else none
  let wallet := if fetchCtx then fetchUserWallet env.walletApi else none
  let ctxEvents : List Event :=
    if fetchCtx then
      [Event.profileFetch, Event.portfolioFetch, Event.walletFetch] ++
        (match portfolio with
         | some pf => pf.map (fun a => Event.coinQuery a.coin.id)
         | none => [])
    else []
  let detail : Except String (List String) :=
    match portfolio with
    | some pf => if pf.length > 0 then portfolioLines env.coinDb pf else .ok []
    | none => .ok []
  match detail with
  | .error _ => crashed s1 (evs ++ ctxEvents)
  | .ok lines =>
    let contextParts : List String :=
      (match profile with
       | some pr =>
         ["👤 User Profile:\n- Name: " ++ pr.fullName ++ "\n- Email: " ++ pr.email ++
           "\n- Phone: " ++ (if pr.mobile = "" then "Not provided" else pr.mobile)]
       | none => []) ++
      (match portfolio with
       | some pf =>
         if pf.length > 0 then ["📦 Portfolio Holdings:\n" ++ joinSep "\n" lines] else []
       | none => []) ++
      (match wallet with
       | some w => ["💰 Wallet Balance: $" ++ ratToFixed 2 w.balance ++ "\n🔖 Wallet ID: #FAVHJY" ++ toString w.id]
       | none => [])
    let conversationHistory := joinSep "\n" (takeLast 10 s1.history)
    let histBlock :=
      if conversationHistory = "" then "" else "Conversation History:\n" ++ conversationHistory ++ "\n"
    let dataBlock :=
      if includeUserData && contextParts.length > 0 then
        "User Data:\n" ++ joinSep "\n\n" contextParts ++ "\n"
      else ""
    let prompt := "You are a financial assistant.\n" ++ histBlock ++ "\n" ++ dataBlock ++ "\n" ++
      "Current Query: \"" ++ clean ++ "\"\n" ++ "Provide a detailed, specific response."
    match env.genAi with
    | .error _ => crashed s1 (evs ++ ctxEvents ++ [Event.genQuery prompt])
    | .ok t => finish s1 clean (cleanResponse t) (evs ++ ctxEvents ++ [Event.genQuery prompt])

/-- Lines 335-356, the direct market-data branch; the `general` intent maps
to `null` in the `responses` table and falls through to the fallback. -/
def directBranch (env : Env) (clean : String) (authHeader : Option String)
    (c : String) (s1 : Session) : RunResult :=
  match getCryptoData env.coinDb c with
  | .error _ => crashed s1 [Event.coinQuery c]
  | .ok none => finish s1 clean ("⚠️ Couldn't find data for " ++ c) [Event.coinQuery c]
  | .ok (some cd) =>
    match env.intentOf with
    | .price =>
      finish s1 clean ("💰 Current price of " ++ cd.name ++ " (" ++ upperStr cd.symbol ++ ") is $" ++ ratToFixed 2 cd.price)
        [Event.coinQuery c]
    | .market_cap => finish s1 clean ("📊 Market Cap: $" ++ fmtLocale cd.market_cap) [Event.coinQuery c]
    | .volume => finish s1 clean ("💹 24h Volume: $" ++ fmtLocale cd.volume_24h) [Event.coinQuery c]
    | .change => finish s1 clean ("📈 24h Change: " ++ ratToString cd.change_24h ++ "%") [Event.coinQuery c]
    | .general => fallbackBranch env clean authHeader s1 [Event.coinQuery c]

/-- Lines 310 onwards: the branches after news and trade, in source order
(holdings query, direct data query, fallback). -/
def postTrade (env : Env) (clean : String) (authHeader : Option String)
    (coinR : Option String) (s1 : Session) : RunResult :=
  match coinR with
  | some c =>
    if authHeader.isSome && (strIncludes clean "holding" || strIncludes clean "am i holding") then
      holdingsBranch env clean c s1
    else
      directBranch env clean authHeader c s1
  | none => fallbackBranch env clean authHeader s1 []

/-- Lines 181-197, the news branch; a news db error rejects into the
top-level catch. -/
def newsBranch (env : Env) (clean : String) (s1 : Session) : RunResult :=
  match getLatestNews env.newsDb with
  | .error _ => crashed s1 [Event.newsQuery]
  | .ok newsItems =>
    if newsItems.length > 0 then
      finish s1 clean ("Here are the latest news headlines:\n" ++
        String.join (newsItems.map (fun it => "• " ++ it.title ++ " (Source: " ++ it.source ++ ", Published: " ++ it.published_at ++ ")\n")))
        [Event.newsQuery]
    else
      finish s1 clean "No news available at the moment." [Event.newsQuery]

/-- The whole `router.post("/")` handler, as a function of the request
body's optional `message`, the authorization header, the stored session of
the requesting user (none when the user id is not yet in
`conversationMemory`), and the collaborator oracle. -/
def chatHandler (message : Option String) (authHeader : Option String)
    (pre : Option Session) (env : Env) : RunResult :=
  match message with
  | none => ⟨.badRequest "Message is required", pre, []⟩
  | some m =>
    if m = "" then ⟨.badRequest "Message is required", pre, []⟩
    else
      let clean := trimStr (lowerStr m)
      let s0 : Session := match pre with
        | none => { history := [], lastCoin := none }
        | some s => s
      let coinR := resolveCoin env.extractCoin s0.lastCoin
      let s1 : Session := { s0 with lastCoin := coinR }
      if strIncludes clean "news" || strIncludes clean "headlines" || strIncludes clean "latest news" then
        newsBranch env clean s1
      else if authHeader.isSome && (strIncludes clean "buy" || strIncludes clean "sell") then
        tradeBranch env clean coinR s1
      else
        postTrade env clean authHeader coinR s1

/-- Modelled from the spec: the history block the spec's words call for in
the fallback prompt — "the last 10 history turns", where §3 defines a turn
as a (userText, botText) pair, i.e. the last 20 raw entries, joined by
newlines.  Used only to compare the spec's wording with the code. -/
def specHistoryBlock (history : List String) : String :=
  joinSep "\n" (takeLast 20 history)

/-- The prompts sent to the generative collaborator during a run. -/
def promptsOf (r : RunResult) : List String :=
  r.events.filterMap (fun e => match e with | Event.genQuery p => some p | _ => none)

/-- Number of order submissions in a trace. -/
def countSubmits (evs : List Event) : ℕ :=
  (evs.filter (fun e => match e with | Event.orderSubmit _ => true | _ => false)).length

/-- A neutral concrete collaborator oracle for closed evaluations: no coin
extracted, general intent, empty news, no market rows, account backend
down, order submission failing, generative model answering "ok". -/
def envNeutral : Env :=
  { extractCoin := none
    intentOf := .general
    newsDb := .ok []
    coinDb := fun _ => .ok none
    profileApi := .error "down"
    portfolioApi := .error "down"
    walletApi := .error "down"
    orderApi := .error "down"
    genAi := .ok "ok" }

/-- Concrete Bitcoin market row for closed evaluations. -/
def coinBTC : CoinFact :=
  { name := "Bitcoin", symbol := "BTC", price := 100, market_cap := 2000000
    volume_24h := 30000, change_24h := 5, last_updated := "2024-01-01" }

/-- Concrete Dogecoin market row for closed evaluations. -/
def coinDOGE : CoinFact :=
  { name := "Dogecoin", symbol := "DOGE", price := 1/10, market_cap := 1000
    volume_24h := 50, change_24h := -2, last_updated := "2024-01-01" }

/-- Oracle for concrete trade scenarios: extraction yields "bitcoin",
market data has Bitcoin and Dogecoin, the wallet holds $50, the portfolio
holds 1 BTC, order submission succeeds. -/
def envTrade : Env :=
  { extractCoin := some "bitcoin"
    intentOf := .general
    newsDb := .ok []
    coinDb := fun n =>
      if n = "bitcoin" then .ok (some coinBTC)
      else if n = "dogecoin" then .ok (some coinDOGE)
      else .ok none
    profileApi := .error "down"
    portfolioApi := .ok [{ coin := { id := "bitcoin", name := "Bitcoin", symbol := "BTC" }, quantity := 1 }]
    walletApi := .ok { id := 7, balance := 50 }
    orderApi := .ok ()
    genAi := .ok "ok" }

/-- Twelve-entry (six turn-pair) history used to compare the fallback
prompt with the spec wording. -/
def hist12 : List String :=
  ["User: u1", "Bot: b1", "User: u2", "Bot: b2", "User: u3", "Bot: b3",
   "User: u4", "Bot: b4", "User: u5", "Bot: b5", "User: u6", "Bot: b6"]

/-! ## Session-preservation lemmas: every branch keeps the `lastCoin` it was
handed (only the resolution step at the top of the handler writes it). -/

theorem placeOrder_keepsLast (env : Env) (clean : String) (s1 : Session) (ot : OrderType)
    (q : ℚ) (cd : CoinFact) (evs : List Event) :
    ∃ s', (placeOrder env clean s1 ot q cd evs).sessionAfter = some s' ∧ s'.lastCoin = s1.lastCoin := by
  unfold placeOrder
  dsimp only
  split <;> exact ⟨_, rfl, rfl⟩

theorem tradeCont_keepsLast (env : Env) (clean : String) (coinR : Option String) (s1 : Session)
    (ot : OrderType) (pn : ℚ) (d : Bool) (q : ℚ) (evs : List Event) :
    ∃ s', (tradeCont env clean coinR s1 ot pn d q evs).sessionAfter = some s' ∧ s'.lastCoin = s1.lastCoin := by
  unfold tradeCont
  try dsimp only
  repeat' split
  all_goals first
    | exact ⟨_, rfl, rfl⟩
    | apply placeOrder_keepsLast

theorem tradeBranch_keepsLast (env : Env) (clean : String) (coinR : Option String) (s1 : Session) :
    ∃ s', (tradeBranch env clean coinR s1).sessionAfter = some s' ∧ s'.lastCoin = s1.lastCoin := by
  unfold tradeBranch
  try dsimp only
  repeat' split
  all_goals first
    | exact ⟨_, rfl, rfl⟩
    | apply tradeCont_keepsLast

theorem holdingsBranch_keepsLast (env : Env) (clean : String) (c : String) (s1 : Session) :
    ∃ s', (holdingsBranch env clean c s1).sessionAfter = some s' ∧ s'.lastCoin = s1.lastCoin := by
  unfold holdingsBranch
  try dsimp only
  repeat' split
  all_goals exact ⟨_, rfl, rfl⟩

theorem fallbackBranch_keepsLast (env : Env) (clean : String) (authHeader : Option String)
    (s1 : Session) (evs : List Event) :
    ∃ s', (fallbackBranch env clean authHeader s1 evs).sessionAfter = some s' ∧ s'.lastCoin = s1.lastCoin := by
  unfold fallbackBranch
  try dsimp only
  repeat' split
  all_goals exact ⟨_, rfl, rfl⟩

theorem directBranch_keepsLast (env : Env) (clean : String) (authHeader : Option String)
    (c : String) (s1 : Session) :
    ∃ s', (directBranch env clean authHeader c s1).sessionAfter = some s' ∧ s'.lastCoin = s1.lastCoin := by
  unfold directBranch
  try dsimp only
  repeat' split
  all_goals first
    | exact ⟨_, rfl, rfl⟩
    | apply fallbackBranch_keepsLast

theorem postTrade_keepsLast (env : Env) (clean : String) (authHeader : Option String)
    (coinR : Option String) (s1 : Session) :
    ∃ s', (postTrade env clean authHeader coinR s1).sessionAfter = some s' ∧ s'.lastCoin = s1.lastCoin := by
  unfold postTrade
  try dsimp only
  repeat' split
  all_goals first
    | apply fallbackBranch_keepsLast
    | apply holdingsBranch_keepsLast
    | apply directBranch_keepsLast

theorem newsBranch_keepsLast (env : Env) (clean : String) (s1 : Session) :
    ∃ s', (newsBranch env clean s1).sessionAfter = some s' ∧ s'.lastCoin = s1.lastCoin := by
  unfold newsBranch
  try dsimp only
  repeat' split
  all_goals exact ⟨_, rfl, rfl⟩

/-! ## Claim theorems -/

/-- C9: a request whose body lacks `message` (missing or the empty string)
is answered with the 400-class "Message is required" error, the session
store is left exactly as it was (no session created or mutated), no
outbound call is made, and the result does not depend on any collaborator. -/
theorem missing_message_no_side_effects (authHeader : Option String)
    (pre : Option Session) (env env' : Env) :
    chatHandler none authHeader pre env = ⟨.badRequest "Message is required", pre, []⟩ ∧
    chatHandler (some "") authHeader pre env = ⟨.badRequest "Message is required", pre, []⟩ ∧
    chatHandler none authHeader pre env = chatHandler none authHeader pre env' ∧
    chatHandler (some "") authHeader pre env = chatHandler (some "") authHeader pre env' :=
  ⟨rfl, rfl, rfl, rfl⟩

/-- C5: one history update appends exactly the user entry then the bot
entry, keeps at most 20 raw entries (10 turn-pairs), and on overflow drops
the oldest entries first: the result is always the suffix of the appended
list that fits in 20 entries. -/
theorem history_update_cap (h : List String) (u b : String) (hlen : h.length ≤ 20) :
    (updateConversationMemory h u b).length ≤ 20 ∧
    updateConversationMemory h u b =
      (h ++ ["User: " ++ u, "Bot: " ++ b]).drop (h.length + 2 - 20) := by
  unfold updateConversationMemory takeLast
  dsimp only
  have hl : (h ++ ["User: " ++ u, "Bot: " ++ b]).length = h.length + 2 := by
    simp
  by_cases hc : (h ++ ["User: " ++ u, "Bot: " ++ b]).length > 20
  · rw [if_pos hc, hl]
    refine ⟨?_, rfl⟩
    rw [List.length_drop, hl]
    omega
  · rw [if_neg hc]
    rw [hl] at hc
    have h0 : h.length + 2 - 20 = 0 := by omega
    rw [h0, List.drop_zero]
    exact ⟨by rw [hl]; omega, rfl⟩

/-- Witness for C5 at a concrete 12-entry history. -/
theorem history_update_cap_witness :
    (updateConversationMemory hist12 "u7" "b7").length ≤ 20 ∧
    updateConversationMemory hist12 "u7" "b7" =
      (hist12 ++ ["User: " ++ "u7", "Bot: " ++ "b7"]).drop (hist12.length + 2 - 20) :=
  history_update_cap hist12 "u7" "b7" (by decide)

/-- C7: for every handled message the session's `lastCoin` after the
request equals the extracted coin when extraction succeeded and the
previous `lastCoin` otherwise; in particular after a turn whose extraction
yielded `c`, a following turn with no extraction resolves the coin to `c`
from memory instead of treating it as absent. -/
theorem lastCoin_overwrite_and_recall (m : String) (authHeader : Option String)
    (s : Session) (env : Env) (hm : m ≠ "") :
    ∃ s', (chatHandler (some m) authHeader (some s) env).sessionAfter = some s' ∧
      s'.lastCoin = resolveCoin env.extractCoin s.lastCoin ∧
      (∀ c, env.extractCoin = some c → s'.lastCoin = some c ∧ resolveCoin none s'.lastCoin = some c) ∧
      (env.extractCoin = none → s'.lastCoin = s.lastCoin) := by
  have hcore : ∃ s', (chatHandler (some m) authHeader (some s) env).sessionAfter = some s' ∧
      s'.lastCoin = resolveCoin env.extractCoin s.lastCoin := by
    unfold chatHandler
    dsimp only
    rw [if_neg hm]
    try dsimp only
    repeat' split
    all_goals first
      | apply newsBranch_keepsLast
      | apply tradeBranch_keepsLast
      | apply postTrade_keepsLast
  obtain ⟨s', h1, h2⟩ := hcore
  refine ⟨s', h1, h2, ?_, ?_⟩
  · intro c hc
    rw [h2, hc]
    exact ⟨rfl, rfl⟩
  · intro hc
    rw [h2, hc]
    rfl

/-- Witness for C7: with extraction yielding "bitcoin", the stored
`lastCoin` after the request is "bitcoin". -/
theorem lastCoin_overwrite_and_recall_witness :
    ∃ s', (chatHandler (some "price of bitcoin") none
        (some { history := [], lastCoin := none }) envTrade).sessionAfter = some s' ∧
      s'.lastCoin = some "bitcoin" := by
  obtain ⟨s', h1, _, h3, _⟩ :=
    lastCoin_overwrite_and_recall "price of bitcoin" none { history := [], lastCoin := none }
      envTrade (by decide)
  exact ⟨s', h1, (h3 "bitcoin" rfl).1⟩

/-- C1 (code bug evaluation): a dollar-denominated BUY with no resolved
coin reaches `getCryptoData(coinName)` with `coinName` still null before
the `!coinName` guard, so the handler answers with the 500 internal error
instead of the "Please specify which coin you want to trade." prompt. -/
theorem tradeBranch_dollarBuy_missingCoin_500 :
    chatHandler (some "buy 10 dollars of it") (some "token")
        (some { history := [], lastCoin := none }) envNeutral =
      { response := .serverError "Internal server error",
        sessionAfter := some { history := [], lastCoin := none },
        events := [] } := by decide

/-- C8 (counterexample): the trade branch accepts the extracted amount 0
and submits an order whose quantity is 0, which is not positive. -/
theorem zero_quantity_order_submitted :
    (tradeBranch envTrade "buy 0 bitcoin" (some "bitcoin")
        { history := [], lastCoin := some "bitcoin" }).events =
      [Event.coinQuery "bitcoin", Event.walletFetch,
       Event.orderSubmit { coinId := "bitcoin", quantity := 0, orderType := .BUY }] ∧
    ¬ (0 : ℚ) < ({ coinId := "bitcoin", quantity := 0, orderType := .BUY } : OrderData).quantity := by
  constructor
  · have h0 : round8 ((0 : ℚ)) = 0 := by
      norm_num [round8]
    simp only [tradeBranch, tradeCont, placeOrder, getCryptoData, fetchUserWallet, finish,
      envTrade, coinBTC,
      show strIncludes "buy 0 bitcoin" "buy" = true from by decide,
      show firstNumber ("buy 0 bitcoin").toList = some 0 from by decide,
      show strIncludes "buy 0 bitcoin" "dollar" = false from by decide,
      show strIncludes "buy 0 bitcoin" "usd" = false from by decide,
      show strIncludes "buy 0 bitcoin" "worth" = false from by decide,
      show lowerStr "bitcoin" = "bitcoin" from by decide,
      show lowerStr "Bitcoin" = "bitcoin" from by decide]
    norm_num [h0]
    decide
  · norm_num

/-- C4 (counterexample): a database failure in the coin-fact or news
gateway is not converted to absence — it surfaces as a rejection, and in
the handler as the 500 internal error (shown on a news request). -/
theorem market_gateway_propagates_failure :
    getCryptoData (fun _ => Except.error "db down") "btc" = Except.error "Database error." ∧
    getLatestNews (Except.error "db down") = Except.error "Database error fetching news." ∧
    (chatHandler (some "any news") none none
        { envNeutral with newsDb := Except.error "db down" }).response =
      Response.serverError "Internal server error" :=
  ⟨rfl, rfl, by decide⟩

/-- C6 (counterexample): on a 12-entry (6 turn-pair) history the fallback
prompt embeds only the most recent 10 raw entries — it does not contain
the block the spec's "last 10 history turns" (= up to 20 raw entries)
wording calls for. -/
theorem fallback_prompt_misses_older_turns :
    (promptsOf (fallbackBranch envNeutral "hello there" none
        { history := hist12, lastCoin := none } [])).length = 1 ∧
    (promptsOf (fallbackBranch envNeutral "hello there" none
        { history := hist12, lastCoin := none } [])).all
      (fun p => strIncludes p (joinSep "\n" (takeLast 10 hist12)) &&
                !(strIncludes p (specHistoryBlock hist12))) = true :=
  ⟨by decide, by decide⟩

/-! ## Helper lemmas shared by the trade-branch theorems -/

theorem getCryptoData_ok (dbq : String → Except String (Option CoinFact)) (n : String)
    (row : Option CoinFact) :
    getCryptoData dbq n = Except.ok row ↔ dbq (lowerStr n) = Except.ok row := by
  unfold getCryptoData
  split <;> simp_all

theorem fetchUserWallet_ok (api : Except String Wallet) (w : Wallet) :
    fetchUserWallet api = some w ↔ api = Except.ok w := by
  unfold fetchUserWallet
  split <;> simp_all

theorem fetchUserPortfolio_ok (api : Except String (List Asset)) (pf : List Asset) :
    fetchUserPortfolio api = some pf ↔ api = Except.ok pf := by
  unfold fetchUserPortfolio
  split <;> simp_all

theorem firstNumber_nonneg : ∀ (cs : List Char) (q : ℚ), firstNumber cs = some q → 0 ≤ q := by
  intro cs
  induction cs with
  | nil =>
    intro q h
    exact absurd h (by simp [firstNumber])
  | cons c rest ih =>
    intro q h
    rw [firstNumber] at h
    by_cases hd : c.isDigit
    · rw [if_pos hd] at h
      try dsimp only at h
      split at h
      · split at h
        · injection h with h'
          subst h'
          positivity
        · injection h with h'
          subst h'
          positivity
      · injection h with h'
        subst h'
        positivity
    · rw [if_neg hd] at h
      exact ih q h

theorem round8_nonneg (q : ℚ) (h : 0 ≤ q) : 0 ≤ round8 q := by
  unfold round8
  have h1 : (0 : ℤ) ≤ round (q * 100000000) := by
    rw [round_eq]
    refine Int.le_floor.mpr ?_
    push_cast
    nlinarith
  have h2 : (0 : ℚ) ≤ ((round (q * 100000000) : ℤ) : ℚ) := by exact_mod_cast h1
  positivity

theorem strEmptyAppend (s : String) : "" ++ s = s := by
  apply String.ext
  rw [String.data_append]
  rfl

theorem genPrompts_nil (evs : List Event) (h : ∀ q, Event.genQuery q ∉ evs) :
    evs.filterMap (fun e => match e with | Event.genQuery p => some p | _ => none) = [] := by
  induction evs with
  | nil => rfl
  | cons e rest ih =>
    have h1 : ∀ q, Event.genQuery q ∉ rest := fun q hq => h q (List.mem_cons_of_mem _ hq)
    cases e with
    | genQuery q => exact absurd (List.mem_cons_self _ _) (h q)
    | newsQuery => simpa [List.filterMap_cons] using ih h1
    | coinQuery n => simpa [List.filterMap_cons] using ih h1
    | profileFetch => simpa [List.filterMap_cons] using ih h1
    | portfolioFetch => simpa [List.filterMap_cons] using ih h1
    | walletFetch => simpa [List.filterMap_cons] using ih h1
    | orderSubmit o => simpa [List.filterMap_cons] using ih h1

theorem genPrompts_map_nil (pf : List Asset) :
    (pf.map (fun a => Event.coinQuery a.coin.id)).filterMap
      (fun e => match e with | Event.genQuery p => some p | _ => none) = [] := by
  induction pf with
  | nil => rfl
  | cons a rest ih => simp_all [List.filterMap_cons]

/-- C2: in the trade branch, for a BUY with amount extracted, coin resolved
to a market row, and the wallet fetched: the cost is the extracted amount
when a dollar keyword is present and quantity times price otherwise; a cost
above the balance yields the balance-rejection reply with no submission,
and a cost at or below the balance yields exactly one submission. -/
theorem buy_balance_check (env : Env) (clean : String) (s1 : Session)
    (c : String) (amt : ℚ) (cd : CoinFact) (w : Wallet)
    (hb : strIncludes clean "buy" = true)
    (hnum : firstNumber clean.toList = some amt)
    (hdb : env.coinDb (lowerStr c) = Except.ok (some cd))
    (hw : env.walletApi = Except.ok w) :
    ((strIncludes clean "dollar" || strIncludes clean "usd" || strIncludes clean "worth") = true →
      (w.balance < amt →
        (tradeBranch env clean (some c) s1).response = .ok "Insufficient wallet balance to buy." ∧
        countSubmits (tradeBranch env clean (some c) s1).events = 0) ∧
      (¬ w.balance < amt →
        countSubmits (tradeBranch env clean (some c) s1).events = 1)) ∧
    ((strIncludes clean "dollar" || strIncludes clean "usd" || strIncludes clean "worth") = false →
      (w.balance < amt * cd.price →
        (tradeBranch env clean (some c) s1).response = .ok "Insufficient wallet balance to buy." ∧
        countSubmits (tradeBranch env clean (some c) s1).events = 0) ∧
      (¬ w.balance < amt * cd.price →
        countSubmits (tradeBranch env clean (some c) s1).events = 1)) := by
  unfold tradeBranch tradeCont
  rw [hnum]
  simp only [hb, if_true]
  constructor
  · intro hd
    rw [hd]
    simp only [getCryptoData, hdb, fetchUserWallet, hw]
    try dsimp only
    constructor
    · intro hlt
      rw [if_pos hlt]
      exact ⟨rfl, by simp [countSubmits, finish]⟩
    · intro hge
      rw [if_neg hge]
      unfold placeOrder
      try dsimp only
      split <;> simp [countSubmits, finish]
  · intro hd
    rw [hd]
    simp only [getCryptoData, hdb, fetchUserWallet, hw]
    try dsimp only
    simp only [Bool.false_eq_true, if_false]
    constructor
    · intro hlt
      rw [if_pos hlt]
      exact ⟨rfl, by simp [countSubmits, finish]⟩
    · intro hge
      rw [if_neg hge]
      unfold placeOrder
      try dsimp only
      split <;> simp [countSubmits, finish]

/-- Witness for C2: a BUY of 2 bitcoin at price 100 against a $50 wallet is
rejected for insufficient balance and submits nothing. -/
theorem buy_balance_check_witness :
    (tradeBranch envTrade "buy 2 bitcoin" (some "bitcoin")
        { history := [], lastCoin := none }).response = .ok "Insufficient wallet balance to buy." ∧
    countSubmits (tradeBranch envTrade "buy 2 bitcoin" (some "bitcoin")
        { history := [], lastCoin := none }).events = 0 :=
  ((buy_balance_check envTrade "buy 2 bitcoin" { history := [], lastCoin := none }
      "bitcoin" 2 coinBTC { id := 7, balance := 50 }
      (by decide) (by decide) rfl rfl).2 (by decide)).1
    (by norm_num [coinBTC])

/-- C3: in the trade branch, for a SELL with amount extracted, coin
resolved to a market row, and the portfolio fetched: no matching asset
(case-folded name or symbol) yields the "not holding" reply with no
submission; a matching asset with quantity below the requested amount
yields the distinct "Insufficient quantity to sell." reply with no
submission; the two rejection texts differ for every coin name. -/
theorem sell_holdings_check (env : Env) (clean : String) (s1 : Session)
    (c : String) (amt : ℚ) (cd : CoinFact) (pf : List Asset)
    (hnb : strIncludes clean "buy" = false)
    (_hs : strIncludes clean "sell" = true)
    (hnum : firstNumber clean.toList = some amt)
    (hdb : env.coinDb (lowerStr c) = Except.ok (some cd))
    (hp : env.portfolioApi = Except.ok pf) :
    (pf.find? (fun a => assetMatches c a) = none →
      (tradeBranch env clean (some c) s1).response = .ok ("You are not holding " ++ c ++ ".") ∧
      countSubmits (tradeBranch env clean (some c) s1).events = 0) ∧
    (∀ a, pf.find? (fun a0 => assetMatches c a0) = some a → a.quantity < amt →
      (tradeBranch env clean (some c) s1).response = .ok "Insufficient quantity to sell." ∧
      countSubmits (tradeBranch env clean (some c) s1).events = 0) ∧
    (∀ s, ("You are not holding " ++ s ++ ".") ≠ "Insufficient quantity to sell.") := by
  have hne : ∀ s, ("You are not holding " ++ s ++ ".") ≠ "Insufficient quantity to sell." := by
    intro s h
    have h2 := congrArg String.data h
    simp only [String.data_append] at h2
    have h3 := congrArg List.head? h2
    simp [List.head?_append] at h3
  refine ⟨?_, ?_, hne⟩
  · intro hfind
    unfold tradeBranch tradeCont
    rw [hnum]
    simp only [hnb]
    try dsimp only
    simp only [getCryptoData, hdb, fetchUserPortfolio, hp]
    try dsimp only
    rw [hfind]
    exact ⟨rfl, by simp [countSubmits, finish]⟩
  · intro a hfind hlt
    unfold tradeBranch tradeCont
    rw [hnum]
    simp only [hnb]
    try dsimp only
    simp only [getCryptoData, hdb, fetchUserPortfolio, hp]
    try dsimp only
    rw [hfind]
    try dsimp only
    rw [if_pos hlt]
    exact ⟨rfl, by simp [countSubmits, finish]⟩

/-- Witness for C3: selling 5 bitcoin while holding 1 yields the
insufficient-quantity rejection and submits nothing. -/
theorem sell_holdings_check_witness :
    (tradeBranch envTrade "sell 5 bitcoin" (some "bitcoin")
        { history := [], lastCoin := none }).response = .ok "Insufficient quantity to sell." ∧
    countSubmits (tradeBranch envTrade "sell 5 bitcoin" (some "bitcoin")
        { history := [], lastCoin := none }).events = 0 :=
  (sell_holdings_check envTrade "sell 5 bitcoin" { history := [], lastCoin := none }
      "bitcoin" 5 coinBTC [{ coin := { id := "bitcoin", name := "Bitcoin", symbol := "BTC" }, quantity := 1 }]
      (by decide) (by decide) (by decide) rfl rfl).2.1
    { coin := { id := "bitcoin", name := "Bitcoin", symbol := "BTC" }, quantity := 1 }
    (by decide) (by norm_num)

/-- C10: a trade-branch message containing both "buy" and "sell" resolves
the order type to BUY; the SELL path is never taken — the portfolio is
never fetched and any submitted order is a BUY. -/
theorem buy_keyword_precedence (env : Env) (clean : String) (coinR : Option String) (s1 : Session)
    (hb : strIncludes clean "buy" = true) (_hs : strIncludes clean "sell" = true) :
    (if strIncludes clean "buy" then OrderType.BUY else OrderType.SELL) = OrderType.BUY ∧
    Event.portfolioFetch ∉ (tradeBranch env clean coinR s1).events ∧
    (∀ o, Event.orderSubmit o ∈ (tradeBranch env clean coinR s1).events → o.orderType = OrderType.BUY) := by
  refine ⟨by simp [hb], ?_, ?_⟩
  · unfold tradeBranch tradeCont placeOrder
    simp only [hb]
    try dsimp only
    repeat' split
    all_goals simp_all [finish, crashed]
  · unfold tradeBranch tradeCont placeOrder
    simp only [hb]
    try dsimp only
    repeat' split
    all_goals intro o ho
    all_goals simp_all [finish, crashed]

/-- Witness for C10 at a message containing both keywords. -/
theorem buy_keyword_precedence_witness :
    (if strIncludes "buy then sell 2 bitcoin" "buy" then OrderType.BUY else OrderType.SELL) = OrderType.BUY ∧
    Event.portfolioFetch ∉ (tradeBranch envTrade "buy then sell 2 bitcoin" (some "bitcoin")
        { history := [], lastCoin := none }).events :=
  ⟨(buy_keyword_precedence envTrade "buy then sell 2 bitcoin" (some "bitcoin")
      { history := [], lastCoin := none } (by decide) (by decide)).1,
   (buy_keyword_precedence envTrade "buy then sell 2 bitcoin" (some "bitcoin")
      { history := [], lastCoin := none } (by decide) (by decide)).2.1⟩

/-- C8 (amended): every order the trade branch actually submits has a
nonnegative quantity (zero is possible; positivity is not enforced) equal
to the computed quantity rounded to 8 fractional digits, an order type in
{BUY, SELL}, is submitted at most once per request with no retry, and is
constructed only after the amount, coin, coin-data and balance/holdings
checks passed.  Nonnegativity assumes the market rows carry positive
prices. -/
theorem order_submission_disciplined (env : Env) (clean : String) (coinR : Option String)
    (s1 : Session)
    (hpos : ∀ n f, env.coinDb n = Except.ok (some f) → 0 < f.price) :
    countSubmits (tradeBranch env clean coinR s1).events ≤ 1 ∧
    (∀ o, Event.orderSubmit o ∈ (tradeBranch env clean coinR s1).events →
      (o.orderType = OrderType.BUY ∨ o.orderType = OrderType.SELL) ∧
      0 ≤ o.quantity ∧
      ∃ amt c cd, firstNumber clean.toList = some amt ∧ coinR = some c ∧
        env.coinDb (lowerStr c) = Except.ok (some cd) ∧
        o.coinId = lowerStr cd.name ∧
        o.quantity = round8 (if (o.orderType = OrderType.BUY ∧
            (strIncludes clean "dollar" || strIncludes clean "usd" || strIncludes clean "worth") = true)
          then amt / cd.price else amt) ∧
        ((o.orderType = OrderType.BUY ∧ ∃ w, env.walletApi = Except.ok w ∧
            ¬ w.balance < (if (strIncludes clean "dollar" || strIncludes clean "usd" || strIncludes clean "worth") = true
              then amt else amt * cd.price)) ∨
         (o.orderType = OrderType.SELL ∧ ∃ pf a, env.portfolioApi = Except.ok pf ∧
            pf.find? (fun x => assetMatches c x) = some a ∧ ¬ a.quantity < amt))) := by
  constructor
  · unfold tradeBranch tradeCont placeOrder
    try dsimp only
    repeat' split
    all_goals simp [finish, crashed, countSubmits]
  · unfold tradeBranch tradeCont placeOrder
    try dsimp only
    repeat' split
    all_goals intro o ho
    all_goals simp only [finish, crashed, List.mem_append, List.mem_cons, List.not_mem_nil,
      or_false, false_or, List.mem_singleton] at ho
    all_goals simp_all
    all_goals refine ⟨?_, ?_⟩
    all_goals first
      | exact round8_nonneg _ (firstNumber_nonneg _ _ (by assumption))
      | exact round8_nonneg _ (div_nonneg (firstNumber_nonneg _ _ (by assumption))
          (le_of_lt (hpos _ _ ((getCryptoData_ok _ _ _).mp (by assumption)))))
      | exact ⟨_, (getCryptoData_ok _ _ _).mp (by assumption), rfl, rfl, _,
          (fetchUserWallet_ok _ _).mp (by assumption), by assumption⟩
      | exact ⟨_, (getCryptoData_ok _ _ _).mp (by assumption), rfl, _,
          (fetchUserWallet_ok _ _).mp (by assumption), by assumption⟩
      | exact ⟨_, (getCryptoData_ok _ _ _).mp (by assumption), rfl, _,
          (fetchUserPortfolio_ok _ _).mp (by assumption), _, by assumption, by assumption⟩

/-- Witness for the amended C8 at the concrete trade oracle. -/
theorem order_submission_disciplined_witness :
    countSubmits (tradeBranch envTrade "buy 2 bitcoin" (some "bitcoin")
        { history := [], lastCoin := none }).events ≤ 1 :=
  (order_submission_disciplined envTrade "buy 2 bitcoin" (some "bitcoin")
      { history := [], lastCoin := none }
      (by
        intro n f h
        simp only [envTrade] at h
        split_ifs at h with h1 h2
        · simp only [Except.ok.injEq, Option.some.injEq] at h
          subst h
          norm_num [coinBTC]
        · simp only [Except.ok.injEq, Option.some.injEq] at h
          subst h
          norm_num [coinDOGE]
        · simp at h)).1

/-- C6 (amended): every prompt the fallback branch sends to the generative
collaborator embeds the join of the last 10 raw history entries of the
session (i.e. the last 5 turn-pairs; for shorter histories, all of them),
provided the branch was entered with a trace not already holding prompts. -/
theorem fallback_embeds_last10_entries (env : Env) (clean : String) (authHeader : Option String)
    (s1 : Session) (evs : List Event) (hevs : ∀ q, Event.genQuery q ∉ evs) :
    ∀ p, p ∈ promptsOf (fallbackBranch env clean authHeader s1 evs) →
      ∃ u v, p = u ++ joinSep "\n" (takeLast 10 s1.history) ++ v := by
  unfold fallbackBranch promptsOf finish crashed
  try dsimp only
  repeat' split
  all_goals intro p hp
  all_goals simp only [List.filterMap_append, genPrompts_nil _ hevs, genPrompts_map_nil,
    List.filterMap_cons, List.filterMap_nil, List.nil_append, List.append_nil] at hp
  all_goals try exact absurd hp (List.not_mem_nil p)
  all_goals try simp only [List.mem_singleton] at hp
  all_goals try subst hp
  all_goals first
    | exact ⟨"You are a financial assistant.\n" ++ "Conversation History:\n", _,
        by simp only [String.append_assoc]; rfl⟩
    | (rw [show joinSep "\n" (takeLast 10 s1.history) = "" from by assumption]
       exact ⟨"", _, by
         rw [show ("" : String) ++ "" = "" from rfl]
         exact (strEmptyAppend _).symm⟩)

/-- Witness for the amended C6: the concrete fallback prompt over the
12-entry history embeds the join of its last 10 entries. -/
theorem fallback_embeds_last10_entries_witness :
    ∃ u v, ("You are a financial assistant.\nConversation History:\nUser: u2\nBot: b2\nUser: u3\nBot: b3\nUser: u4\nBot: b4\nUser: u5\nBot: b5\nUser: u6\nBot: b6\n\n\nCurrent Query: \"hi\"\nProvide a detailed, specific response." : String) =
      u ++ joinSep "\n" (takeLast 10 ({ history := hist12, lastCoin := none } : Session).history) ++ v :=
  fallback_embeds_last10_entries envNeutral "hi" none { history := hist12, lastCoin := none } []
    (by simp)
    "You are a financial assistant.\nConversation History:\nUser: u2\nBot: b2\nUser: u3\nBot: b3\nUser: u4\nBot: b4\nUser: u5\nBot: b5\nUser: u6\nBot: b6\n\n\nCurrent Query: \"hi\"\nProvide a detailed, specific response."
    (by decide)

/-- C4 (amended): the five account-read gateways convert every collaborator
failure into absence and every success into presence — they never
propagate; the two market-data gateways return the row (or absence) on a
successful query but convert a database error into a rejection that
propagates into the request handler, where it surfaces as the 500 internal
error (shown for a news request). -/
theorem gateway_failure_discipline :
    (∀ e : String, fetchUserProfile (Except.error e) = none) ∧
    (∀ e : String, fetchUserPortfolio (Except.error e) = none) ∧
    (∀ e : String, fetchUserWallet (Except.error e) = none) ∧
    (∀ e : String, fetchOrderHistory (Except.error e) = none) ∧
    (∀ e : String, fetchWalletTransactions (Except.error e) = none) ∧
    (∀ v, fetchUserProfile (Except.ok v) = some v) ∧
    (∀ v, fetchUserPortfolio (Except.ok v) = some v) ∧
    (∀ v, fetchUserWallet (Except.ok v) = some v) ∧
    (∀ v, fetchOrderHistory (Except.ok v) = some v) ∧
    (∀ v, fetchWalletTransactions (Except.ok v) = some v) ∧
    (∀ dbq n e, dbq (lowerStr n) = Except.error e →
      getCryptoData dbq n = Except.error "Database error.") ∧
    (∀ dbq n row, dbq (lowerStr n) = Except.ok row → getCryptoData dbq n = Except.ok row) ∧
    (∀ q (e : String), q = Except.error e →
      getLatestNews q = Except.error "Database error fetching news.") ∧
    (∀ q (rows : List NewsItem), q = Except.ok rows → getLatestNews q = Except.ok rows) ∧
    (∀ (e : String) (env : Env) (auth : Option String) (pre : Option Session),
      env.newsDb = Except.error e →
      (chatHandler (some "news") auth pre env).response = Response.serverError "Internal server error") := by
  refine ⟨fun _ => rfl, fun _ => rfl, fun _ => rfl, fun _ => rfl, fun _ => rfl,
    fun _ => rfl, fun _ => rfl, fun _ => rfl, fun _ => rfl, fun _ => rfl,
    ?_, ?_, ?_, ?_, ?_⟩
  · intro dbq n e h
    unfold getCryptoData
    rw [h]
  · intro dbq n row h
    unfold getCryptoData
    rw [h]
  · intro q e h
    subst h
    rfl
  · intro q rows h
    subst h
    rfl
  · intro e env auth pre henv
    unfold chatHandler newsBranch getLatestNews
    dsimp only
    rw [if_neg (by decide : ¬("news" : String) = "")]
    simp only [show trimStr (lowerStr "news") = "news" from by decide,
      show strIncludes "news" "news" = true from by decide, Bool.true_or, if_true]
    rw [henv]
    rfl

/-- Witness for the amended C4 at concrete failures. -/
theorem gateway_failure_discipline_witness :
    getCryptoData (fun _ => Except.error "down") "BTC" = Except.error "Database error." ∧
    fetchUserProfile (Except.error "down") = none ∧
    (chatHandler (some "news") none none
        { envNeutral with newsDb := Except.error "down" }).response =
      Response.serverError "Internal server error" :=
  ⟨gateway_failure_discipline.2.2.2.2.2.2.2.2.2.2.1 (fun _ => Except.error "down") "BTC" "down" rfl,
   gateway_failure_discipline.1 "down",
   gateway_failure_discipline.2.2.2.2.2.2.2.2.2.2.2.2.2.2 "down"
     { envNeutral with newsDb := Except.error "down" } none none rfl⟩
